import Mathlib

/-
Verification of the Civitas committee platform core
(CivitasPlatform/database/db_manager.py, CivitasPlatform/utils/trust_score.py,
CivitasPlatform/utils/payment_manager.py, and the payout figure displayed by
CivitasPlatform/pages/committee_management.py).

Modelling conventions:
- Python `datetime` values are modelled as integer day numbers; `timedelta(days=k)`
  becomes integer addition.  A civil-calendar conversion (daysFromCivil /
  civilFromDays) is provided to state concrete calendar dates.
- Python `int` is modelled as `Int`; the float ratios appearing in the trust-score
  arithmetic are modelled as exact rationals, and Python `int(x)` (truncation
  toward zero) as `pyInt`.
- The in-memory stores (dicts keyed by UUID) are modelled as lists in insertion
  order; dict lookup by id becomes `List.find?` on the id field, which agrees with
  the dict semantics because UUID keys are unique.
- Fresh UUIDs produced by `uuid.uuid4()` are passed in as explicit arguments; the
  reachability relation records their freshness as side conditions.
-/

namespace Civitas

/-- Python `int(x)` for `x : ℚ`: truncation toward zero. -/
def pyInt (q : ℚ) : Int :=
  if q < 0 then -((-q).floor) else q.floor

/-- Row of the `payments` table / `Payment` dataclass (db_manager.py lines 39-48).
The dataclass itself has no `due_date` field; `_calculate_payment_score` probes
for one with `hasattr`, so the optional attribute is modelled as `Option Int`
(`none` for rows produced by the repository's own dataclass). -/
structure Payment where
  id : String
  committee_id : String
  user_id : String
  amount : Int
  payment_date : Int
  status : String
  transaction_id : Option String
  payment_method : String
  due_date : Option Int
deriving DecidableEq, Repr

/-- Row of the `committees` table / `Committee` dataclass (db_manager.py lines 23-37). -/
structure Committee where
  id : String
  title : String
  description : Option String
  monthly_amount : Int
  total_members : Int
  current_members : Int
  duration : Int
  committee_type : String
  category : String
  payment_frequency : String
  status : String
  admin_id : String
  created_date : Int
deriving DecidableEq, Repr

/-- Row of the `committee_members` table (the fallback stores the same fields in a
dict per member, db_manager.py lines 398-406 and 518-527). -/
structure Membership where
  id : String
  committee_id : String
  user_id : String
  position : Int
  joined_date : Int
deriving DecidableEq, Repr

/-- Row of the `committee_invitations` table / fallback invitation dict
(db_manager.py lines 161-172 and 766-781). -/
structure Invitation where
  id : String
  committee_id : String
  invited_user_id : String
  invited_by_id : String
  invitation_date : Int
  status : String
  response_date : Option Int
  message : Option String
deriving DecidableEq, Repr

/-- The result of `get_user_by_id`, restricted to the attribute that
`_calculate_tenure_score` reads.  The function probes `created_date` with
`hasattr`, so it is modelled as optional (the dict actually returned by
`get_user_by_id` carries no `created_date` entry). -/
structure UserData where
  created_date : Option Int
deriving DecidableEq, Repr

/-- The mutable store: committees, memberships and invitations in insertion
order (the fallback keeps them in dicts keyed by fresh UUIDs). -/
structure Store where
  committees : List Committee
  members : List Membership
  invitations : List Invitation
deriving DecidableEq, Repr

/-! ## Trust score engine (utils/trust_score.py) -/

/-- The paid payments selected by `_calculate_payment_score`
(`[p for p in payments if p.status == 'paid']`). -/
def paidPayments (payments : List Payment) : List Payment :=
  payments.filter (fun p => p.status == "paid")

/-- Whether the on-time loop of `_calculate_payment_score` counts a payment:
it must expose a `due_date` (hasattr) and satisfy `payment_date <= due_date`. -/
def onTimeB (p : Payment) : Bool :=
  match p.due_date with
  | some d => decide (p.payment_date ≤ d)
  | none => false

/-- The number of on-time paid payments counted by `_calculate_payment_score`. -/
def onTimeCount (payments : List Payment) : Nat :=
  (paidPayments payments).countP onTimeB

/-- `TrustScoreManager._calculate_payment_score` (trust_score.py lines 36-58). -/
def calculate_payment_score (payments : List Payment) : Int :=
  if payments.isEmpty then 0
  else
    let paid_payments := payments.filter (fun p => p.status == "paid")
    let total_payments := payments.length
    if total_payments = 0 then 0
    else
      let payment_ratio : ℚ := (paid_payments.length : ℚ) / (total_payments : ℚ)
      let on_time_payments : Nat := paid_payments.countP onTimeB
      let on_time_ratio : ℚ :=
        if ¬ paid_payments.isEmpty then (on_time_payments : ℚ) / (paid_payments.length : ℚ)
        else 0
      pyInt (payment_ratio * 25 + on_time_ratio * 15)

/-- `TrustScoreManager._calculate_completion_score` (trust_score.py lines 60-74). -/
def calculate_completion_score (committees : List Committee) : Int :=
  if committees.isEmpty then 0
  else
    let completed_committees := committees.filter (fun c => c.status == "completed")
    let total_committees := committees.length
    let completion_ratio : ℚ := (completed_committees.length : ℚ) / (total_committees : ℚ)
    let active_committees := committees.filter (fun c => c.status == "active")
    let active_bonus : Int := min 10 (2 * (active_committees.length : Int))
    pyInt (completion_ratio * 20 + (active_bonus : ℚ))

/-- `TrustScoreManager._calculate_tenure_score` (trust_score.py lines 76-87):
`min(20, int(account_age.days / 30))` when the looked-up user data exposes a
`created_date`, else 0. -/
def calculate_tenure_score (user_data : Option UserData) (now : Int) : Int :=
  match user_data with
  | none => 0
  | some u =>
    match u.created_date with
    | none => 0
    | some cd =>
      let days : Int := now - cd
      let months_active : ℚ := (days : ℚ) / 30
      min 20 (pyInt months_active)

/-- The non-bootstrap branch of `calculate_trust_score` (trust_score.py lines
19-34): base 50 plus the three components, clamped into [0, 100]. -/
def trust_score_formula (payments : List Payment) (committees : List Committee)
    (user_data : Option UserData) (now : Int) : Int :=
  let base_score : Int := 50
  let payment_score := calculate_payment_score payments
  let completion_score := calculate_completion_score committees
  let tenure_score := calculate_tenure_score user_data now
  let total_score := base_score + payment_score + completion_score + tenure_score
  min 100 (max 0 total_score)

/-- `TrustScoreManager.calculate_trust_score` (trust_score.py lines 9-34).
`payments`/`committees` stand for the lists fetched for the user and
`user_data`/`now` feed the tenure component. -/
def calculate_trust_score (payments : List Payment) (committees : List Committee)
    (user_data : Option UserData) (now : Int) : Int :=
  if payments.isEmpty && committees.isEmpty then 85
  else trust_score_formula payments committees user_data now

/-! ## Store operations (database/db_manager.py)

Each operation is the pure state transition implemented by `DatabaseManager`:
the SQL path and the in-memory fallback implement the same transition (where
they differ, the divergence is proved below).  Generated UUIDs and the current
timestamp are passed as arguments. -/

/-- `DatabaseManager.create_committee` (db_manager.py lines 373-435): inserts a
committee with `current_members = 1` and `status = 'active'`, and a membership
for the admin at position 1. -/
def create_committee (s : Store) (committee_id member_id : String) (now : Int)
    (title : String) (description : Option String) (monthly_amount : Int)
    (total_members : Int) (duration : Int) (committee_type : String)
    (category : String) (payment_frequency : String) (admin_id : String) :
    Bool × Store :=
  let c : Committee :=
    { id := committee_id, title := title, description := description,
      monthly_amount := monthly_amount, total_members := total_members,
      current_members := 1, duration := duration, committee_type := committee_type,
      category := category, payment_frequency := payment_frequency,
      status := "active", admin_id := admin_id, created_date := now }
  let m : Membership :=
    { id := member_id, committee_id := committee_id, user_id := admin_id,
      position := 1, joined_date := now }
  (true, { s with committees := s.committees ++ [c], members := s.members ++ [m] })

/-- Whether `user_id` already has a membership in `committee_id`
(the fallback loop at db_manager.py lines 514-516; the unique constraint on
`(committee_id, user_id)` in SQL). -/
def isMember (s : Store) (committee_id user_id : String) : Bool :=
  s.members.any (fun m => m.committee_id == committee_id && m.user_id == user_id)

/-- `DatabaseManager.join_committee` (db_manager.py lines 506-573): capacity
check, duplicate-membership check, then insert at `position = current_members + 1`
and increment `current_members`. -/
def join_committee (s : Store) (member_id : String) (now : Int)
    (committee_id user_id : String) : Bool × Store :=
  match s.committees.find? (fun c => c.id == committee_id) with
  | none => (false, s)
  | some c =>
    if c.current_members < c.total_members then
      if s.members.any (fun m => m.committee_id == committee_id && m.user_id == user_id) then
        (false, s)
      else
        let m : Membership :=
          { id := member_id, committee_id := committee_id, user_id := user_id,
            position := c.current_members + 1, joined_date := now }
        (true,
         { s with
           members := s.members ++ [m],
           committees := s.committees.map (fun c2 =>
             if c2.id == committee_id then { c2 with current_members := c2.current_members + 1 }
             else c2) })
    else (false, s)

/-- `DatabaseManager._join_committee_internal` (db_manager.py lines 902-934):
same transition as `join_committee` (the duplicate check is the unique
constraint raising `IntegrityError`). -/
def join_committee_internal (s : Store) (member_id : String) (now : Int)
    (committee_id user_id : String) : Bool × Store :=
  match s.committees.find? (fun c => c.id == committee_id) with
  | none => (false, s)
  | some c =>
    if c.current_members < c.total_members then
      if s.members.any (fun m => m.committee_id == committee_id && m.user_id == user_id) then
        (false, s)
      else
        let m : Membership :=
          { id := member_id, committee_id := committee_id, user_id := user_id,
            position := c.current_members + 1, joined_date := now }
        (true,
         { s with
           members := s.members ++ [m],
           committees := s.committees.map (fun c2 =>
             if c2.id == committee_id then { c2 with current_members := c2.current_members + 1 }
             else c2) })
    else (false, s)

/-- `DatabaseManager.delete_committee` (db_manager.py lines 695-726): removes the
committee and its dependent memberships. -/
def delete_committee (s : Store) (committee_id : String) : Bool × Store :=
  if s.committees.any (fun c => c.id == committee_id) then
    (true,
     { s with
       committees := s.committees.filter (fun c => !(c.id == committee_id)),
       members := s.members.filter (fun m => !(m.committee_id == committee_id)) })
  else (false, s)

/-- `DatabaseManager.update_committee_settings` (db_manager.py lines 658-693):
rewrites the listed fields of the committee; id, admin, counts and memberships
are untouched. -/
def update_committee_settings (s : Store) (committee_id : String) (title : String)
    (description : Option String) (status payment_frequency category committee_type : String) :
    Bool × Store :=
  if s.committees.any (fun c => c.id == committee_id) then
    (true,
     { s with
       committees := s.committees.map (fun c =>
         if c.id == committee_id then
           { c with title := title, description := description, status := status,
                    payment_frequency := payment_frequency, category := category,
                    committee_type := committee_type }
         else c) })
  else (false, s)

/-- `DatabaseManager.send_committee_invitation` (db_manager.py lines 761-803):
inserts a `pending` invitation. -/
def send_committee_invitation (s : Store) (invitation_id : String) (now : Int)
    (committee_id invited_user_id invited_by_id : String) (message : Option String) :
    Bool × Store :=
  (true,
   { s with
     invitations := s.invitations ++
       [{ id := invitation_id, committee_id := committee_id,
          invited_user_id := invited_user_id, invited_by_id := invited_by_id,
          invitation_date := now, status := "pending", response_date := none,
          message := message }] })

/-- The in-memory fallback path of `DatabaseManager.respond_to_invitation`
(db_manager.py lines 851-861): the invitation status is overwritten with the
response BEFORE the join is attempted, and is not reverted when the join fails. -/
def respond_to_invitation_fallback (s : Store) (member_id : String) (now : Int)
    (invitation_id response : String) : Bool × Store :=
  match s.invitations.find? (fun i => i.id == invitation_id) with
  | none => (false, s)
  | some inv =>
    let s1 : Store :=
      { s with
        invitations := s.invitations.map (fun i =>
          if i.id == invitation_id then { i with status := response, response_date := some now }
          else i) }
    if response == "accepted" then
      join_committee s1 member_id now inv.committee_id inv.invited_user_id
    else (true, s1)

/-- The database path of `DatabaseManager.respond_to_invitation` (db_manager.py
lines 863-900): the status update (restricted to `pending` invitations) and the
join run in one transaction; a failed join rolls the whole transaction back. -/
def respond_to_invitation_db (s : Store) (member_id : String) (now : Int)
    (invitation_id response : String) : Bool × Store :=
  match s.invitations.find? (fun i => i.id == invitation_id && i.status == "pending") with
  | none => (false, s)
  | some inv =>
    let s1 : Store :=
      { s with
        invitations := s.invitations.map (fun i =>
          if i.id == invitation_id && i.status == "pending" then
            { i with status := response, response_date := some now }
          else i) }
    if response == "accepted" then
      let r := join_committee_internal s1 member_id now inv.committee_id inv.invited_user_id
      if r.1 then (true, r.2) else (false, s)
    else (true, s1)

/-- `DatabaseManager.get_public_committees_for_user` (db_manager.py lines
468-504): public committees the user has not joined that still have an open
slot. -/
def get_public_committees_for_user (s : Store) (user_id : String) : List Committee :=
  s.committees.filter (fun c =>
    c.committee_type == "public" &&
    !(s.members.any (fun m => m.user_id == user_id && m.committee_id == c.id)) &&
    decide (c.current_members < c.total_members))

/-- `DatabaseManager.get_member_position_in_committee` (db_manager.py lines
575-599): the member's stored position, or 0 when no membership row matches. -/
def get_member_position_in_committee (s : Store) (committee_id user_id : String) : Int :=
  match s.members.find? (fun m => m.committee_id == committee_id && m.user_id == user_id) with
  | some m => m.position
  | none => 0

/-- `DatabaseManager.get_user_committees` (db_manager.py lines 437-466): the
committees the user holds a membership in, resolved through the store. -/
def get_user_committees (s : Store) (user_id : String) : List Committee :=
  s.members.filterMap (fun m =>
    if m.user_id == user_id then s.committees.find? (fun c => c.id == m.committee_id)
    else none)

/-! ## Calendar arithmetic

`datetime + timedelta(days = k)` is day-number addition.  To state concrete
calendar dates the standard civil-calendar conversion is embedded (day 0 is
1970-01-01, the proleptic Gregorian calendar). -/

/-- Day number of a civil date (proleptic Gregorian, 1970-01-01 = 0). -/
def daysFromCivil (y m d : Int) : Int :=
  let y2 : Int := if m ≤ 2 then y - 1 else y
  let era : Int := Int.fdiv y2 400
  let yoe : Int := y2 - era * 400
  let mp : Int := if m > 2 then m - 3 else m + 9
  let doy : Int := (153 * mp + 2) / 5 + d - 1
  let doe : Int := yoe * 365 + yoe / 4 - yoe / 100 + doy
  era * 146097 + doe - 719468

/-- Civil date of a day number (inverse of `daysFromCivil`). -/
def civilFromDays (z0 : Int) : Int × Int × Int :=
  let z : Int := z0 + 719468
  let era : Int := Int.fdiv z 146097
  let doe : Int := z - era * 146097
  let yoe : Int := (doe - doe / 1460 + doe / 36524 - doe / 146096) / 365
  let y : Int := yoe + era * 400
  let doy : Int := doe - (365 * yoe + yoe / 4 - yoe / 100)
  let mp : Int := (5 * doy + 2) / 153
  let d : Int := doy - (153 * mp + 2) / 5 + 1
  let m : Int := if mp < 10 then mp + 3 else mp - 9
  (if m ≤ 2 then y + 1 else y, m, d)

/-! ## Payment manager (utils/payment_manager.py) -/

/-- One entry of the schedule returned by `calculate_payment_schedule`
(payment_manager.py lines 25-29). -/
structure ScheduleEntry where
  cycle : Nat
  due_date : Int
  amount_per_member : Option Int
deriving DecidableEq, Repr

/-- `PaymentManager.calculate_payment_schedule` (payment_manager.py lines
10-31): `interval_days` is 30 for `monthly`, 60 for `bi_monthly`, default 30;
cycle `k` (0-based) is due at `start_date + interval_days * k`. -/
def calculate_payment_schedule (committee_id : String) (start_date : Int)
    (payment_frequency : String) (duration : Nat) : List ScheduleEntry :=
  let interval_days : Int :=
    if payment_frequency = "monthly" then 30
    else if payment_frequency = "bi_monthly" then 60
    else 30
  (List.range duration).map (fun cycle =>
    { cycle := cycle + 1, due_date := start_date + interval_days * (cycle : Int),
      amount_per_member := none })

/-- One notification returned by `get_payout_notifications`
(payment_manager.py lines 166-171). -/
structure PayoutNotification where
  committee_id : String
  committee_title : String
  amount : Int
  estimated_date : Int
deriving DecidableEq, Repr

/-- `PaymentManager.get_payout_notifications` (payment_manager.py lines
153-173): for every committee of the user where the user's position is 1, emit
a notification whose amount is `monthly_amount * current_members`, read from
the committee's current state. -/
def get_payout_notifications (s : Store) (user_id : String) (now : Int) :
    List PayoutNotification :=
  (get_user_committees s user_id).filterMap (fun c =>
    if get_member_position_in_committee s c.id user_id = 1 then
      some { committee_id := c.id, committee_title := c.title,
             amount := c.monthly_amount * c.current_members,
             estimated_date := now + 7 }
    else none)

/-- The payout figure shown on the committee browse page
(pages/committee_management.py line 575):
`estimated_payout = committee.monthly_amount * committee.total_members`. -/
def estimated_payout (c : Committee) : Int :=
  c.monthly_amount * c.total_members

/-! ## Reachable states

The platform mutates the store only through the `DatabaseManager` operations
embedded above.  `Reach` closes an initial store under those operations;
`OpOk` records the freshness of the UUIDs generated by `uuid.uuid4()` where the
proofs need it (a freshly generated committee id collides with no existing
row). -/

/-- The structural store invariants maintained by every operation: committees
hold at least their admin (`current_members ≥ 1`), the admin of every committee
has a membership at position 1, every membership of an admin in their own
committee sits at position 1, and all stored positions are at least 1. -/
def Inv (s : Store) : Prop :=
  (∀ c ∈ s.committees, 1 ≤ c.current_members) ∧
  (∀ c ∈ s.committees, ∃ m ∈ s.members,
      m.committee_id = c.id ∧ m.user_id = c.admin_id ∧ m.position = 1) ∧
  (∀ c ∈ s.committees, ∀ m ∈ s.members,
      m.committee_id = c.id → m.user_id = c.admin_id → m.position = 1) ∧
  (∀ m ∈ s.members, 1 ≤ m.position)

/-- One call into `DatabaseManager`, with the generated UUIDs and the call time
as data. -/
inductive Op where
  | createC (committee_id member_id : String) (now : Int) (title : String)
      (description : Option String) (monthly_amount total_members duration : Int)
      (committee_type category payment_frequency admin_id : String)
  | joinC (member_id : String) (now : Int) (committee_id user_id : String)
  | deleteC (committee_id : String)
  | updateC (committee_id title : String) (description : Option String)
      (status payment_frequency category committee_type : String)
  | sendInv (invitation_id : String) (now : Int)
      (committee_id invited_user_id invited_by_id : String) (message : Option String)
  | respondF (member_id : String) (now : Int) (invitation_id response : String)
  | respondDB (member_id : String) (now : Int) (invitation_id response : String)

/-- The store produced by one operation (the returned boolean is dropped). -/
def applyOp (s : Store) : Op → Store
  | .createC cid mid now t d ma tm du ct cat pf aid =>
      (create_committee s cid mid now t d ma tm du ct cat pf aid).2
  | .joinC mid now cid uid => (join_committee s mid now cid uid).2
  | .deleteC cid => (delete_committee s cid).2
  | .updateC cid t d st pf cat ct => (update_committee_settings s cid t d st pf cat ct).2
  | .sendInv iid now cid iu ib msg => (send_committee_invitation s iid now cid iu ib msg).2
  | .respondF mid now iid resp => (respond_to_invitation_fallback s mid now iid resp).2
  | .respondDB mid now iid resp => (respond_to_invitation_db s mid now iid resp).2

/-- Side conditions justified by UUID freshness: a newly generated committee id
is distinct from every stored committee id and referenced by no membership. -/
def OpOk (s : Store) : Op → Prop
  | .createC cid _ _ _ _ _ _ _ _ _ _ _ =>
      (∀ c ∈ s.committees, c.id ≠ cid) ∧ (∀ m ∈ s.members, m.committee_id ≠ cid)
  | _ => True

/-- Stores reachable from `s0` through `DatabaseManager` operations. -/
inductive Reach (s0 : Store) : Store → Prop where
  | refl : Reach s0 s0
  | step {s : Store} (op : Op) : Reach s0 s → OpOk s op → Reach s0 (applyOp s op)

/-! ## Concrete sample data used by witnesses and counterexamples -/

/-- A three-payment history: one payment paid on time, two pending. -/
def samplePayments : List Payment :=
  [ { id := "p1", committee_id := "k", user_id := "u", amount := 1000, payment_date := 0,
      status := "paid", transaction_id := none, payment_method := "bank_transfer",
      due_date := some 0 },
    { id := "p2", committee_id := "k", user_id := "u", amount := 1000, payment_date := 0,
      status := "pending", transaction_id := none, payment_method := "bank_transfer",
      due_date := some 30 },
    { id := "p3", committee_id := "k", user_id := "u", amount := 1000, payment_date := 0,
      status := "pending", transaction_id := none, payment_method := "bank_transfer",
      due_date := some 60 } ]

/-- A committee at capacity (2 of 2 members). -/
def fullCommittee : Committee :=
  { id := "c-full", title := "Full", description := none, monthly_amount := 5000,
    total_members := 2, current_members := 2, duration := 10, committee_type := "public",
    category := "General", payment_frequency := "monthly", status := "active",
    admin_id := "admin1", created_date := 0 }

/-- A store holding `fullCommittee` with both of its members. -/
def storeFull : Store :=
  { committees := [fullCommittee],
    members :=
      [ { id := "m1", committee_id := "c-full", user_id := "admin1", position := 1,
          joined_date := 0 },
        { id := "m2", committee_id := "c-full", user_id := "user2", position := 2,
          joined_date := 0 } ],
    invitations := [] }

/-- The empty store. -/
def emptyStore : Store := { committees := [], members := [], invitations := [] }

/-- A concrete `create_committee` call on the empty store. -/
def createOp : Op :=
  .createC "c1" "m1" 0 "Sogo" none 5000 5 10 "public" "General" "monthly" "admin1"

/-- The store after `createOp`. -/
def storeAfterCreate : Store := applyOp emptyStore createOp

/-- A committee created with 3 members that has since grown to 6 of 10
(monthly amount 5000, the example of the spec). -/
def grownCommittee : Committee :=
  { id := "g", title := "Growing", description := none, monthly_amount := 5000,
    total_members := 10, current_members := 6, duration := 12, committee_type := "public",
    category := "General", payment_frequency := "monthly", status := "active",
    admin_id := "admin-g", created_date := 0 }

/-- A store holding `grownCommittee` with its admin at position 1. -/
def payoutStore : Store :=
  { committees := [grownCommittee],
    members :=
      [ { id := "mg", committee_id := "g", user_id := "admin-g", position := 1,
          joined_date := 0 } ],
    invitations := [] }

/-- The payout notification produced for the admin of `grownCommittee`. -/
def samplePayoutNotification : PayoutNotification :=
  { committee_id := "g", committee_title := "Growing", amount := 30000,
    estimated_date := 7 }

/-- A store with a full one-member committee and a pending invitation to user
`b` — the committee filled between invitation creation and response. -/
def invStore : Store :=
  { committees :=
      [ { id := "k", title := "Tiny", description := none, monthly_amount := 1000,
          total_members := 1, current_members := 1, duration := 5,
          committee_type := "private", category := "General",
          payment_frequency := "monthly", status := "active", admin_id := "a",
          created_date := 0 } ],
    members := [ { id := "m1", committee_id := "k", user_id := "a", position := 1,
                   joined_date := 0 } ],
    invitations :=
      [ { id := "i1", committee_id := "k", invited_user_id := "b", invited_by_id := "a",
          invitation_date := 0, status := "pending", response_date := none,
          message := none } ] }

/-! ## Helper lemmas -/

theorem pyInt_eq (q : ℚ) : pyInt q = if q < 0 then -⌊-q⌋ else ⌊q⌋ := by
  unfold pyInt
  rw [Rat.floor_def', ← Rat.floor_def, Rat.floor_def', ← Rat.floor_def]

theorem pyInt_zero : pyInt 0 = 0 := by
  rw [pyInt_eq]
  norm_num

theorem any_member_eq_false_iff (l : List Membership) (u cid : String) :
    (l.any (fun m => m.user_id == u && m.committee_id == cid)) = false ↔
    ¬ ∃ m ∈ l, m.user_id = u ∧ m.committee_id = cid := by
  simp

/-! ## C3: trust score bounds -/

/-- C3: for every payment history, committee list and account data,
`calculate_trust_score` returns an integer score with `0 ≤ score ≤ 100`. -/
theorem trust_score_bounds (payments : List Payment) (committees : List Committee)
    (user_data : Option UserData) (now : Int) :
    0 ≤ calculate_trust_score payments committees user_data now ∧
    calculate_trust_score payments committees user_data now ≤ 100 := by
  unfold calculate_trust_score
  split
  · norm_num
  · unfold trust_score_formula
    exact ⟨le_min (by norm_num) (le_max_left _ _), min_le_left _ _⟩

/-! ## C4: trust score bootstrap -/

/-- C4: a user with zero payments and zero committees gets exactly the
bootstrap score 85 from `calculate_trust_score`, whatever the account data,
while the component formula itself would give a brand-new account only 50. -/
theorem trust_score_bootstrap :
    (∀ (user_data : Option UserData) (now : Int),
        calculate_trust_score [] [] user_data now = 85) ∧
    (∀ now : Int,
        trust_score_formula [] [] (some { created_date := some now }) now = 50) := by
  constructor
  · intro u now
    rfl
  · intro now
    unfold trust_score_formula calculate_tenure_score
    simp only [calculate_payment_score, calculate_completion_score, List.isEmpty_nil,
      if_pos rfl, sub_self]
    norm_num [pyInt_zero]

/-! ## C5: the payment component of the trust score -/

/-- C5 (counterexample): on the history `samplePayments` (three payments, one
paid on time) the code returns the integer 23, while the claimed formula
`25 * (paid/total) + 15 * (on_time/paid)` has the non-integer value 70/3 —
the code truncates with Python `int()`, so the component does not equal the
exact ratio expression. -/
theorem payment_score_ratio_counterexample :
    calculate_payment_score samplePayments = 23 ∧
    ¬ ((calculate_payment_score samplePayments : ℚ) =
        25 * (((paidPayments samplePayments).length : ℚ) / (samplePayments.length : ℚ)) +
        15 * ((onTimeCount samplePayments : ℚ) / ((paidPayments samplePayments).length : ℚ))) := by
  have h1 : (paidPayments samplePayments).length = 1 := by decide
  have h2 : onTimeCount samplePayments = 1 := by decide
  have h3 : samplePayments.length = 3 := by decide
  have h : calculate_payment_score samplePayments = 23 := by
    simp only [calculate_payment_score, samplePayments, List.filter, List.isEmpty,
      List.length, List.countP, List.countP.go, onTimeB]
    norm_num [pyInt_eq, Int.floor_eq_iff]
  refine ⟨h, ?_⟩
  rw [h, h1, h2, h3]
  norm_num

/-- C5 (amended): the payment component equals the Python `int()` truncation of
`25 * (paid_count / total_payment_count) + 15 * (on_time_count / paid_count)`,
where a paid payment is on time exactly when it carries a due date with
`payment_date ≤ due_date`; the empty history gives 0 and a history with no
paid payment contributes no on-time term (the divisions by zero denominators
are read as 0, exactly the code's guards). -/
theorem payment_score_eq_floor_formula (payments : List Payment) :
    calculate_payment_score payments =
      pyInt (25 * (((paidPayments payments).length : ℚ) / (payments.length : ℚ)) +
             15 * ((onTimeCount payments : ℚ) / ((paidPayments payments).length : ℚ))) := by
  simp only [calculate_payment_score, paidPayments, onTimeCount]
  by_cases hemp : payments.isEmpty
  · rw [List.isEmpty_iff] at hemp
    subst hemp
    simp [pyInt_zero]
  · rw [if_neg (by simpa using hemp)]
    have hlen : payments.length ≠ 0 := by
      simpa [← List.length_eq_zero, List.isEmpty_iff] using hemp
    rw [if_neg hlen]
    by_cases hpe : (payments.filter (fun p => p.status == "paid")).isEmpty
    · rw [List.isEmpty_iff] at hpe
      rw [hpe]
      simp
    · rw [if_pos (by simpa using hpe)]
      congr 1
      ring

/-! ## C6: payment schedule generation -/

/-- C6: `calculate_payment_schedule` produces exactly `duration` entries with
`due_date[cycle] = start_date + interval_days * cycle` where `interval_days` is
30 for `monthly` and 60 for `bi_monthly`; on 2025-01-01/monthly/3 the due dates
are 2025-01-01, 2025-01-31 and 2025-03-02 (literal 30-day stepping, not
calendar months). -/
theorem payment_schedule_spec :
    (∀ (committee_id : String) (start_date : Int) (duration : Nat),
        (calculate_payment_schedule committee_id start_date "monthly" duration).length
            = duration ∧
        (calculate_payment_schedule committee_id start_date "monthly" duration).map
            (fun e => e.due_date)
          = (List.range duration).map (fun (cycle : Nat) => start_date + 30 * (cycle : Int))) ∧
    (∀ (committee_id : String) (start_date : Int) (duration : Nat),
        (calculate_payment_schedule committee_id start_date "bi_monthly" duration).length
            = duration ∧
        (calculate_payment_schedule committee_id start_date "bi_monthly" duration).map
            (fun e => e.due_date)
          = (List.range duration).map (fun (cycle : Nat) => start_date + 60 * (cycle : Int))) ∧
    ((calculate_payment_schedule "c1" (daysFromCivil 2025 1 1) "monthly" 3).map
        (fun e => civilFromDays e.due_date)
      = [(2025, 1, 1), (2025, 1, 31), (2025, 3, 2)]) := by
  refine ⟨fun cid start dur => ⟨?_, ?_⟩, fun cid start dur => ⟨?_, ?_⟩, by decide⟩
  · simp [calculate_payment_schedule]
  · simp only [calculate_payment_schedule, List.map_map]
    rfl
  · simp [calculate_payment_schedule]
  · simp only [calculate_payment_schedule, List.map_map]
    rfl

/-! ## C2: joining a full committee is a soft no-op -/

/-- C2: when the committee is at capacity (`current_members = total_members`)
and the user is even already a member, `join_committee` returns `false` (no
exception) and the store is returned unchanged: no membership row appears and
`current_members` is not incremented. -/
theorem join_committee_full_noop (s : Store) (member_id : String) (now : Int)
    (committee_id user_id : String) (c : Committee)
    (hfind : s.committees.find? (fun c2 => c2.id == committee_id) = some c)
    (hfull : c.current_members = c.total_members)
    (hmem : isMember s committee_id user_id = true) :
    join_committee s member_id now committee_id user_id = (false, s) := by
  unfold join_committee
  rw [hfind]
  have hlt : ¬ (c.current_members < c.total_members) := by omega
  simp [hlt]

/-- Witness for C2 at a concrete full committee with an existing member. -/
theorem join_committee_full_noop_witness :
    storeFull.committees.find? (fun c2 => c2.id == "c-full") = some fullCommittee ∧
    fullCommittee.current_members = fullCommittee.total_members ∧
    isMember storeFull "c-full" "user2" = true ∧
    join_committee storeFull "m3" 1 "c-full" "user2" = (false, storeFull) :=
  ⟨by decide, by decide, by decide,
   join_committee_full_noop storeFull "m3" 1 "c-full" "user2" fullCommittee
     (by decide) (by decide) (by decide)⟩

/-! ## C9: the public committee browse filter -/

/-- C9: `get_public_committees_for_user` returns exactly the committees that
are public, that the user has not joined, and that still have an open slot —
full public committees are filtered out. -/
theorem public_committees_for_user_spec (s : Store) (user_id : String) (c : Committee) :
    c ∈ get_public_committees_for_user s user_id ↔
      c ∈ s.committees ∧ c.committee_type = "public" ∧
      (¬ ∃ m ∈ s.members, m.user_id = user_id ∧ m.committee_id = c.id) ∧
      c.current_members < c.total_members := by
  unfold get_public_committees_for_user
  rw [List.mem_filter, Bool.and_eq_true, Bool.and_eq_true, beq_iff_eq,
    Bool.not_eq_true', any_member_eq_false_iff, decide_eq_true_eq]
  tauto

/-! ## C7: payout amounts -/

/-- C7 (counterexample): the payout figure computed at
pages/committee_management.py line 575 is `monthly_amount * total_members`; on
`grownCommittee` (monthly 5000, 6 of 10 members) it is 50000, not the
`monthly_amount * current_members = 30000` the claim asserts for every payout
amount in the code. -/
theorem estimated_payout_counterexample :
    estimated_payout grownCommittee
        = grownCommittee.monthly_amount * grownCommittee.total_members ∧
    ¬ (estimated_payout grownCommittee
        = grownCommittee.monthly_amount * grownCommittee.current_members) := by
  decide

/-- C7 (amended): every payout notification produced by
`get_payout_notifications` carries `amount = monthly_amount * current_members`
read from the committee's state in the store at call time (so the amount grows
as the committee fills); the browse page's `estimated_payout` display instead
uses `total_members`. -/
theorem payout_notification_amount (s : Store) (user_id : String) (now : Int)
    (n : PayoutNotification) (hn : n ∈ get_payout_notifications s user_id now) :
    ∃ c ∈ s.committees, c.id = n.committee_id ∧
      n.amount = c.monthly_amount * c.current_members := by
  unfold get_payout_notifications at hn
  rw [List.mem_filterMap] at hn
  obtain ⟨c, hc, hsome⟩ := hn
  have hcs : c ∈ s.committees := by
    unfold get_user_committees at hc
    rw [List.mem_filterMap] at hc
    obtain ⟨m, _, hif⟩ := hc
    by_cases hu : (m.user_id == user_id) = true
    · rw [if_pos hu] at hif
      exact List.mem_of_find?_eq_some hif
    · rw [if_neg hu] at hif
      cases hif
  by_cases hpos : get_member_position_in_committee s c.id user_id = 1
  · rw [if_pos hpos] at hsome
    cases hsome
    exact ⟨c, hcs, rfl, rfl⟩
  · rw [if_neg hpos] at hsome
    cases hsome

/-- Witness for C7 (amended) on a concrete store: the admin of
`grownCommittee` receives the notification 5000 * 6 = 30000. -/
theorem payout_notification_amount_witness :
    samplePayoutNotification ∈ get_payout_notifications payoutStore "admin-g" 0 ∧
    ∃ c ∈ payoutStore.committees, c.id = "g" ∧
      (30000 : Int) = c.monthly_amount * c.current_members := by
  have h : samplePayoutNotification ∈ get_payout_notifications payoutStore "admin-g" 0 := by
    decide
  exact ⟨h, payout_notification_amount payoutStore "admin-g" 0 _ h⟩

/-! ## C1: invitation acceptance when the committee filled up -/

/-- C1: on `invStore` (a pending invitation to a committee that has filled in
the meantime) the fallback path of `respond_to_invitation` returns `false` and
creates no membership, but leaves the invitation marked `accepted` — the
status change and the join are not atomic there.  The database path of the
same method rolls the whole response back, returning `false` with the store
unchanged (invitation still `pending`), which is the documented behaviour. -/
theorem respond_to_invitation_full_committee :
    (respond_to_invitation_fallback invStore "m2" 5 "i1" "accepted").1 = false ∧
    ((respond_to_invitation_fallback invStore "m2" 5 "i1" "accepted").2.invitations.map
        (fun i => i.status)) = ["accepted"] ∧
    (respond_to_invitation_fallback invStore "m2" 5 "i1" "accepted").2.members
        = invStore.members ∧
    (respond_to_invitation_fallback invStore "m2" 5 "i1" "accepted").2.committees
        = invStore.committees ∧
    respond_to_invitation_db invStore "m2" 5 "i1" "accepted" = (false, invStore) := by
  decide

/-! ## Invariant preservation -/

theorem join_internal_eq_join (s : Store) (mid : String) (now : Int) (cid uid : String) :
    join_committee_internal s mid now cid uid = join_committee s mid now cid uid := rfl

theorem inv_join (s : Store) (mid : String) (now : Int) (cid uid : String)
    (h : Inv s) : Inv (join_committee s mid now cid uid).2 := by
  unfold Inv at h
  obtain ⟨h1, h2, h3, h4⟩ := h
  unfold join_committee
  cases hfind : s.committees.find? (fun c => c.id == cid) with
  | none => exact ⟨h1, h2, h3, h4⟩
  | some c =>
    have hcmem : c ∈ s.committees := List.mem_of_find?_eq_some hfind
    dsimp only
    by_cases hcap : c.current_members < c.total_members
    · rw [if_pos hcap]
      by_cases hdup : (s.members.any fun m => m.committee_id == cid && m.user_id == uid) = true
      · rw [if_pos hdup]
        exact ⟨h1, h2, h3, h4⟩
      · rw [if_neg hdup]
        have hnodup : ∀ m ∈ s.members, ¬ (m.committee_id = cid ∧ m.user_id = uid) := by
          intro m hm hmc
          apply hdup
          rw [List.any_eq_true]
          exact ⟨m, hm, by simp [hmc.1, hmc.2]⟩
        have hfid : ∀ b : Committee,
            (if (b.id == cid) = true
              then { b with current_members := b.current_members + 1 } else b).id = b.id := by
          intro b
          split <;> rfl
        have hfadmin : ∀ b : Committee,
            (if (b.id == cid) = true
              then { b with current_members := b.current_members + 1 } else b).admin_id
              = b.admin_id := by
          intro b
          split <;> rfl
        unfold Inv
        refine ⟨?_, ?_, ?_, ?_⟩
        · intro c2 hc2
          simp only [List.mem_map] at hc2
          obtain ⟨a, ha, rfl⟩ := hc2
          have := h1 a ha
          split
          · show 1 ≤ a.current_members + 1
            omega
          · exact this
        · intro c2 hc2
          simp only [List.mem_map] at hc2
          obtain ⟨a, ha, rfl⟩ := hc2
          obtain ⟨m0, hm0, hmc, hmu, hmp⟩ := h2 a ha
          refine ⟨m0, List.mem_append_left _ hm0, ?_, ?_, hmp⟩
          · rw [hfid a]
            exact hmc
          · rw [hfadmin a]
            exact hmu
        · intro c2 hc2 m hm hmc hmu
          simp only [List.mem_map] at hc2
          obtain ⟨a, ha, rfl⟩ := hc2
          rw [hfid a] at hmc
          rw [hfadmin a] at hmu
          rw [List.mem_append] at hm
          cases hm with
          | inl hmold => exact h3 a ha m hmold hmc hmu
          | inr hmnew =>
            rw [List.mem_singleton] at hmnew
            subst hmnew
            exfalso
            obtain ⟨m0, hm0, hc0, hu0, _⟩ := h2 a ha
            refine hnodup m0 hm0 ⟨?_, ?_⟩
            · rw [hc0, ← hmc]
            · rw [hu0, ← hmu]
        · intro m hm
          rw [List.mem_append] at hm
          cases hm with
          | inl hmold => exact h4 m hmold
          | inr hmnew =>
            rw [List.mem_singleton] at hmnew
            subst hmnew
            have := h1 c hcmem
            simp only
            omega
    · rw [if_neg hcap]
      exact ⟨h1, h2, h3, h4⟩

theorem inv_create (s : Store) (cid mid : String) (now : Int) (t : String)
    (d : Option String) (ma tm du : Int) (ct cat pf aid : String)
    (hfc : ∀ c ∈ s.committees, c.id ≠ cid)
    (hfm : ∀ m ∈ s.members, m.committee_id ≠ cid)
    (h : Inv s) :
    Inv (create_committee s cid mid now t d ma tm du ct cat pf aid).2 := by
  unfold Inv at h
  obtain ⟨h1, h2, h3, h4⟩ := h
  unfold create_committee Inv
  refine ⟨?_, ?_, ?_, ?_⟩
  · intro c2 hc2
    rw [List.mem_append] at hc2
    cases hc2 with
    | inl hold => exact h1 c2 hold
    | inr hnew =>
      rw [List.mem_singleton] at hnew
      subst hnew
      exact le_refl 1
  · intro c2 hc2
    rw [List.mem_append] at hc2
    cases hc2 with
    | inl hold =>
      obtain ⟨m0, hm0, hmc, hmu, hmp⟩ := h2 c2 hold
      exact ⟨m0, List.mem_append_left _ hm0, hmc, hmu, hmp⟩
    | inr hnew =>
      rw [List.mem_singleton] at hnew
      subst hnew
      exact ⟨_, List.mem_append_right _ (List.mem_singleton_self _), rfl, rfl, rfl⟩
  · intro c2 hc2 m hm hmc hmu
    rw [List.mem_append] at hc2 hm
    cases hc2 with
    | inl hcold =>
      cases hm with
      | inl hmold => exact h3 c2 hcold m hmold hmc hmu
      | inr hmnew =>
        rw [List.mem_singleton] at hmnew
        subst hmnew
        exact absurd hmc.symm (hfc c2 hcold)
    | inr hcnew =>
      rw [List.mem_singleton] at hcnew
      subst hcnew
      cases hm with
      | inl hmold => exact absurd hmc (hfm m hmold)
      | inr hmnew =>
        rw [List.mem_singleton] at hmnew
        subst hmnew
        rfl
  · intro m hm
    rw [List.mem_append] at hm
    cases hm with
    | inl hmold => exact h4 m hmold
    | inr hmnew =>
      rw [List.mem_singleton] at hmnew
      subst hmnew
      exact le_refl 1

theorem inv_delete (s : Store) (cid : String) (h : Inv s) :
    Inv (delete_committee s cid).2 := by
  unfold Inv at h
  obtain ⟨h1, h2, h3, h4⟩ := h
  unfold delete_committee
  by_cases hex : (s.committees.any fun c => c.id == cid) = true
  · rw [if_pos hex]
    unfold Inv
    refine ⟨?_, ?_, ?_, ?_⟩
    · intro c2 hc2
      exact h1 c2 (List.mem_of_mem_filter hc2)
    · intro c2 hc2
      obtain ⟨hc2mem, hc2p⟩ := List.mem_filter.mp hc2
      obtain ⟨m0, hm0, hmc, hmu, hmp⟩ := h2 c2 hc2mem
      refine ⟨m0, List.mem_filter.mpr ⟨hm0, ?_⟩, hmc, hmu, hmp⟩
      rw [Bool.not_eq_eq_eq_not, Bool.not_true, beq_eq_false_iff_ne] at hc2p ⊢
      rw [hmc]
      exact hc2p
    · intro c2 hc2 m hm hmc hmu
      exact h3 c2 (List.mem_of_mem_filter hc2) m (List.mem_of_mem_filter hm) hmc hmu
    · intro m hm
      exact h4 m (List.mem_of_mem_filter hm)
  · rw [if_neg hex]
    exact ⟨h1, h2, h3, h4⟩

theorem inv_update (s : Store) (cid t : String) (d : Option String)
    (st pf cat ct : String) (h : Inv s) :
    Inv (update_committee_settings s cid t d st pf cat ct).2 := by
  unfold Inv at h
  obtain ⟨h1, h2, h3, h4⟩ := h
  unfold update_committee_settings
  by_cases hex : (s.committees.any fun c => c.id == cid) = true
  · rw [if_pos hex]
    have hgid : ∀ b : Committee,
        (if (b.id == cid) = true
          then { b with
                   title := t, description := d, status := st,
                   payment_frequency := pf, category := cat, committee_type := ct }
          else b).id = b.id := by
      intro b
      split <;> rfl
    have hgadmin : ∀ b : Committee,
        (if (b.id == cid) = true
          then { b with
                   title := t, description := d, status := st,
                   payment_frequency := pf, category := cat, committee_type := ct }
          else b).admin_id = b.admin_id := by
      intro b
      split <;> rfl
    have hgcur : ∀ b : Committee,
        (if (b.id == cid) = true
          then { b with
                   title := t, description := d, status := st,
                   payment_frequency := pf, category := cat, committee_type := ct }
          else b).current_members = b.current_members := by
      intro b
      split <;> rfl
    unfold Inv
    refine ⟨?_, ?_, ?_, ?_⟩
    · intro c2 hc2
      simp only [List.mem_map] at hc2
      obtain ⟨a, ha, rfl⟩ := hc2
      rw [hgcur a]
      exact h1 a ha
    · intro c2 hc2
      simp only [List.mem_map] at hc2
      obtain ⟨a, ha, rfl⟩ := hc2
      obtain ⟨m0, hm0, hmc, hmu, hmp⟩ := h2 a ha
      rw [hgid a, hgadmin a]
      exact ⟨m0, hm0, hmc, hmu, hmp⟩
    · intro c2 hc2 m hm hmc hmu
      simp only [List.mem_map] at hc2
      obtain ⟨a, ha, rfl⟩ := hc2
      rw [hgid a] at hmc
      rw [hgadmin a] at hmu
      exact h3 a ha m hm hmc hmu
    · exact h4
  · rw [if_neg hex]
    exact ⟨h1, h2, h3, h4⟩

theorem inv_send (s : Store) (iid : String) (now : Int) (cid iu ib : String)
    (msg : Option String) (h : Inv s) :
    Inv (send_committee_invitation s iid now cid iu ib msg).2 := h

theorem inv_respondF (s : Store) (mid : String) (now : Int) (iid resp : String)
    (h : Inv s) : Inv (respond_to_invitation_fallback s mid now iid resp).2 := by
  unfold respond_to_invitation_fallback
  cases hfind : s.invitations.find? (fun i => i.id == iid) with
  | none => exact h
  | some inv =>
    dsimp only
    by_cases hacc : (resp == "accepted") = true
    · rw [if_pos hacc]
      exact inv_join _ mid now inv.committee_id inv.invited_user_id h
    · rw [if_neg hacc]
      exact h

theorem inv_respondDB (s : Store) (mid : String) (now : Int) (iid resp : String)
    (h : Inv s) : Inv (respond_to_invitation_db s mid now iid resp).2 := by
  unfold respond_to_invitation_db
  cases hfind : s.invitations.find? (fun i => i.id == iid && i.status == "pending") with
  | none => exact h
  | some inv =>
    dsimp only
    by_cases hacc : (resp == "accepted") = true
    · rw [if_pos hacc]
      rw [join_internal_eq_join]
      by_cases hr : (join_committee
          { s with
            invitations := s.invitations.map (fun i =>
              if i.id == iid && i.status == "pending" then
                { i with status := resp, response_date := some now }
              else i) } mid now inv.committee_id inv.invited_user_id).1 = true
      · rw [if_pos hr]
        exact inv_join _ mid now inv.committee_id inv.invited_user_id h
      · rw [if_neg hr]
        exact h
    · rw [if_neg hacc]
      exact h

theorem inv_applyOp (s : Store) (op : Op) (hok : OpOk s op) (h : Inv s) :
    Inv (applyOp s op) := by
  cases op with
  | createC cid mid now t d ma tm du ct cat pf aid =>
    exact inv_create s cid mid now t d ma tm du ct cat pf aid hok.1 hok.2 h
  | joinC mid now cid uid => exact inv_join s mid now cid uid h
  | deleteC cid => exact inv_delete s cid h
  | updateC cid t d st pf cat ct => exact inv_update s cid t d st pf cat ct h
  | sendInv iid now cid iu ib msg => exact inv_send s iid now cid iu ib msg h
  | respondF mid now iid resp => exact inv_respondF s mid now iid resp h
  | respondDB mid now iid resp => exact inv_respondDB s mid now iid resp h

theorem inv_reach (s0 s1 : Store) (h : Inv s0) (hr : Reach s0 s1) : Inv s1 := by
  induction hr with
  | refl => exact h
  | step op hr hok ih => exact inv_applyOp _ op hok ih

/-! ## C8: committee creation and the admin-first invariant -/

/-- C8: a successful `create_committee` persists the committee with
`current_members = 1` and `status = 'active'` together with a membership for the
creating admin at position 1, and in every store reachable through the
`DatabaseManager` operations the membership of a committee's admin in that
committee is at position 1 (the admin stays first in the payout queue). -/
theorem create_committee_admin_first :
    (∀ (s : Store) (cid mid : String) (now : Int) (t : String) (d : Option String)
        (ma tm du : Int) (ct cat pf aid : String),
        (create_committee s cid mid now t d ma tm du ct cat pf aid).1 = true ∧
        (∃ c ∈ (create_committee s cid mid now t d ma tm du ct cat pf aid).2.committees,
            c.id = cid ∧ c.current_members = 1 ∧ c.status = "active" ∧ c.admin_id = aid) ∧
        (∃ m ∈ (create_committee s cid mid now t d ma tm du ct cat pf aid).2.members,
            m.committee_id = cid ∧ m.user_id = aid ∧ m.position = 1)) ∧
    (∀ s0 s1 : Store, Inv s0 → Reach s0 s1 →
        ∀ c ∈ s1.committees, ∀ m ∈ s1.members,
          m.committee_id = c.id → m.user_id = c.admin_id → m.position = 1) := by
  constructor
  · intro s cid mid now t d ma tm du ct cat pf aid
    refine ⟨rfl, ?_, ?_⟩
    · exact ⟨_, List.mem_append_right _ (List.mem_singleton_self _), rfl, rfl, rfl, rfl⟩
    · exact ⟨_, List.mem_append_right _ (List.mem_singleton_self _), rfl, rfl, rfl⟩
  · intro s0 s1 h hr
    exact (inv_reach s0 s1 h hr).2.2.1

/-- Witness for C8: the empty store satisfies the invariants, one concrete
creation step reaches `storeAfterCreate`, and there the admin-first property
holds; the creation call returned `true`. -/
theorem create_committee_admin_first_witness :
    Inv emptyStore ∧ Reach emptyStore storeAfterCreate ∧
    (∀ c ∈ storeAfterCreate.committees, ∀ m ∈ storeAfterCreate.members,
        m.committee_id = c.id → m.user_id = c.admin_id → m.position = 1) ∧
    (create_committee emptyStore "c1" "m1" 0 "Sogo" none 5000 5 10 "public" "General"
        "monthly" "admin1").1 = true := by
  have h0 : Inv emptyStore := by
    unfold Inv emptyStore
    refine ⟨?_, ?_, ?_, ?_⟩ <;> simp
  have hreach : Reach emptyStore storeAfterCreate :=
    Reach.step createOp Reach.refl (by unfold OpOk createOp emptyStore; exact ⟨by simp, by simp⟩)
  exact ⟨h0, hreach,
    create_committee_admin_first.2 emptyStore storeAfterCreate h0 hreach,
    (create_committee_admin_first.1 emptyStore "c1" "m1" 0 "Sogo" none 5000 5 10 "public"
      "General" "monthly" "admin1").1⟩

/-! ## C10: position 0 signals non-membership -/

/-- C10: `get_member_position_in_committee` returns 0 exactly when the user has
no membership row in the committee (in particular when the committee does not
exist), provided every stored position is at least 1 — which holds in every
store reachable through the `DatabaseManager` operations, positions being
1-based. -/
theorem member_position_zero_iff :
    (∀ (s : Store) (committee_id user_id : String),
        (∀ m ∈ s.members, 1 ≤ m.position) →
        (get_member_position_in_committee s committee_id user_id = 0 ↔
          ¬ ∃ m ∈ s.members, m.committee_id = committee_id ∧ m.user_id = user_id)) ∧
    (∀ s0 s1 : Store, Inv s0 → Reach s0 s1 → ∀ m ∈ s1.members, 1 ≤ m.position) := by
  constructor
  · intro s cid uid hpos
    unfold get_member_position_in_committee
    cases hfind : s.members.find? (fun m => m.committee_id == cid && m.user_id == uid) with
    | none =>
      dsimp only
      constructor
      · intro _
        rintro ⟨m, hm, hmc, hmu⟩
        have := List.find?_eq_none.mp hfind m hm
        simp [hmc, hmu] at this
      · intro _
        rfl
    | some m =>
      have hm := List.mem_of_find?_eq_some hfind
      have hp := List.find?_some hfind
      simp only [Bool.and_eq_true, beq_iff_eq] at hp
      have h1 := hpos m hm
      dsimp only
      constructor
      · intro h0
        exfalso
        omega
      · intro hne
        exact absurd ⟨m, hm, hp.1, hp.2⟩ hne
  · intro s0 s1 h hr
    exact (inv_reach s0 s1 h hr).2.2.2

/-- Witness for C10 on concrete stores: in `storeFull` all positions are
1-based and the lookup for a non-member returns 0; the reachability conjunct is
instantiated at the empty store. -/
theorem member_position_zero_iff_witness :
    (∀ m ∈ storeFull.members, 1 ≤ m.position) ∧
    (get_member_position_in_committee storeFull "c-full" "nobody" = 0 ↔
      ¬ ∃ m ∈ storeFull.members, m.committee_id = "c-full" ∧ m.user_id = "nobody") ∧
    Inv emptyStore ∧
    (∀ m ∈ emptyStore.members, 1 ≤ m.position) := by
  have hpos : ∀ m ∈ storeFull.members, 1 ≤ m.position := by decide
  have h0 : Inv emptyStore := by
    unfold Inv emptyStore
    refine ⟨?_, ?_, ?_, ?_⟩ <;> simp
  exact ⟨hpos, member_position_zero_iff.1 storeFull "c-full" "nobody" hpos, h0,
    member_position_zero_iff.2 emptyStore emptyStore h0 Reach.refl⟩

end Civitas
